import Mathlib

/-!
A shallow embedding of `src/main.rs` of the Liberal-Crime-Squad menu shell:
the event type, the menu state machine driven by the controller loop in
`main`, the event-source (producer) loop body, and the three render
functions.  Rust `String` values are modelled as `List Char`
(`String::push` is append of one character, `String::pop` is `dropLast`).
-/

namespace LCS

/-- The subset of crossterm key codes the program distinguishes.  `other`
stands for every key-code variant that no match arm of the source names
(arrow keys, function keys, Tab, ...). -/
inductive KeyCode where
  | Esc
  | Enter
  | Backspace
  | Char (c : Char)
  | other
deriving DecidableEq, Repr

/-- The source's `enum Event<I>` with variants `Input(I)` and `Tick`,
instantiated at key codes, as the controller consumes it. -/
inductive Event where
  | Input (k : KeyCode)
  | Tick
deriving DecidableEq, Repr

/-- The source's `enum MenuItem` with variants `Opening`, `Home` and
`SavegameName`. -/
inductive MenuItem where
  | Opening
  | Home
  | SavegameName
deriving DecidableEq, Repr

/-- The controller's mutable state: `active_menu_item` and the
`savefile_name` buffer. -/
structure State where
  active_menu_item : MenuItem
  savefile_name : List Char
deriving DecidableEq, Repr

/-- Source: `let mut active_menu_item = MenuItem::Home;` -/
def active_menu_item_init : MenuItem := MenuItem.Home

/-- Source: `let mut savefile_name = String::new();` -/
def savefile_name_init : List Char := []

/-- The controller state as set up just before the loop is entered. -/
def initialState : State :=
  { active_menu_item := active_menu_item_init, savefile_name := savefile_name_init }

/-- Terminal side effects performed on the break paths of the loop. -/
inductive Effect where
  | disableRawMode
  | showCursor
deriving DecidableEq, Repr

/-- Result of one iteration of the controller loop body: either the loop
continues with an updated state, or it breaks after performing the listed
terminal effects in order. -/
inductive StepResult where
  | cont (s : State)
  | exit (effects : List Effect)
deriving DecidableEq, Repr

def StepResult.isExit : StepResult → Bool
  | .cont _ => false
  | .exit _ => true

/-- One iteration of the dispatch on `active_menu_item` inside the main
loop (the `terminal.draw` call is modelled separately by `renderFor`).
Character-literal match arms such as `KeyCode::Char('q')` are rendered
as equality tests on the carried character; the final wildcard arm of
the SavegameName screen, which runs `savefile_name.push(c)` under
`if let KeyCode::Char(c) = event.code`, is the `Char c` case there, and
its no-push remainder is the `other` case. -/
def step : State → Event → StepResult
  | ⟨MenuItem.Opening, _⟩, Event.Input KeyCode.Esc =>
      StepResult.exit [Effect.disableRawMode, Effect.showCursor]
  | ⟨MenuItem.Opening, buf⟩, Event.Input _ =>
      StepResult.cont ⟨MenuItem.SavegameName, buf⟩
  | ⟨MenuItem.Opening, buf⟩, Event.Tick =>
      StepResult.cont ⟨MenuItem.Opening, buf⟩
  | ⟨MenuItem.Home, buf⟩, Event.Input (KeyCode.Char c) =>
      if c = 'q' then StepResult.exit [Effect.disableRawMode, Effect.showCursor]
      else if c = 'h' then StepResult.cont ⟨MenuItem.Home, buf⟩
      else if c = 'o' then StepResult.cont ⟨MenuItem.Opening, buf⟩
      else StepResult.cont ⟨MenuItem.Home, buf⟩
  | ⟨MenuItem.Home, buf⟩, _ =>
      StepResult.cont ⟨MenuItem.Home, buf⟩
  | ⟨MenuItem.SavegameName, _⟩, Event.Input KeyCode.Esc =>
      StepResult.exit [Effect.disableRawMode, Effect.showCursor]
  | ⟨MenuItem.SavegameName, buf⟩, Event.Input KeyCode.Enter =>
      StepResult.cont ⟨MenuItem.Home, buf⟩
  | ⟨MenuItem.SavegameName, buf⟩, Event.Input KeyCode.Backspace =>
      StepResult.cont ⟨MenuItem.SavegameName, buf.dropLast⟩
  | ⟨MenuItem.SavegameName, buf⟩, Event.Input (KeyCode.Char c) =>
      StepResult.cont ⟨MenuItem.SavegameName, buf ++ [c]⟩
  | ⟨MenuItem.SavegameName, buf⟩, Event.Input KeyCode.other =>
      StepResult.cont ⟨MenuItem.SavegameName, buf⟩
  | ⟨MenuItem.SavegameName, buf⟩, Event.Tick =>
      StepResult.cont ⟨MenuItem.SavegameName, buf⟩

/-- Status of the controller loop after consuming a finite event sequence. -/
inductive RunResult where
  | running (s : State)
  | exited (effects : List Effect)
deriving DecidableEq, Repr

def RunResult.isRunning : RunResult → Bool
  | .running _ => true
  | .exited _ => false

/-- Run the controller loop over a finite prefix of the event stream. -/
def runEvents (s : State) : List Event → RunResult
  | [] => RunResult.running s
  | e :: rest =>
    match step s e with
    | StepResult.cont s' => runEvents s' rest
    | StepResult.exit effs => RunResult.exited effs

/-- What `main` observably does on a finite event prefix: still looping,
or finished.  After `break` the function falls through to `Ok(())`, so a
finished run reports the effects of its break path and a success status. -/
inductive MainOutcome where
  | stillLooping (s : State)
  | finished (effects : List Effect) (success : Bool)
deriving DecidableEq, Repr

def mainRun (s : State) (evs : List Event) : MainOutcome :=
  match runEvents s evs with
  | RunResult.running s' => MainOutcome.stillLooping s'
  | RunResult.exited effs => MainOutcome.finished effs true

/-! ## Event source (producer thread) -/

/-- Crossterm events as `event::read` returns them: a key event, or any
other event kind (`Mouse`, `Resize`, ...) which the `if let CEvent::Key`
test skips. -/
inductive CEvent where
  | Key (k : KeyCode)
  | other
deriving DecidableEq, Repr

/-- The environment one iteration of the producer loop observes: whether
`event::poll(timeout)` reported a pending event, what `event::read()`
returns then, whether each `tx.send` succeeds, and whether
`last_tick.elapsed() >= tick_rate` held.  `poll` and `read` themselves
are assumed to succeed (their `.expect` failures are separate panics not
touched by the claims). -/
structure ProducerEnv where
  poll : Bool
  read : CEvent
  inputSendOk : Bool
  tickDue : Bool
  tickSendOk : Bool
deriving DecidableEq, Repr

/-- Outcome of one iteration of the producer loop body: the thread
panics (via `.expect("can send events")`), which stops it, or the loop
continues; `sent` lists the events actually delivered to the channel in
order, and `lastTickReset` records whether `last_tick` was set to now. -/
inductive ProducerOutcome where
  | panicked (sent : List Event)
  | continued (sent : List Event) (lastTickReset : Bool)
deriving DecidableEq, Repr

def ProducerOutcome.isStopped : ProducerOutcome → Bool
  | .panicked _ => true
  | .continued _ _ => false

/-- One iteration of the spawned producer loop body: first the
input-poll phase, whose send of `Event::Input(key)` is followed by
`.expect("can send events")`, then the tick phase, where
`if let Ok(_) = tx.send(Event::Tick)` resets `last_tick` on success and
silently ignores an `Err`. -/
def producer_iter (env : ProducerEnv) : ProducerOutcome :=
  match (if env.poll then
           match env.read with
           | CEvent.Key k =>
             if env.inputSendOk then some [Event.Input k] else none
           | CEvent.other => some []
         else some []) with
  | none => ProducerOutcome.panicked []
  | some sentInput =>
    if env.tickDue then
      if env.tickSendOk then
        ProducerOutcome.continued (sentInput ++ [Event.Tick]) true
      else
        ProducerOutcome.continued sentInput false
    else
      ProducerOutcome.continued sentInput false

/-! ## Rendering -/

/-- The tui colors this program uses. -/
inductive Color where
  | White
  | Green
  | LightBlue
deriving DecidableEq, Repr

/-- Styles: `Style::default().fg(color)` — only the foreground is ever
set. -/
structure Style where
  fg : Option Color := none
deriving DecidableEq, Repr

def Style.default : Style := {}

def Style.withFg (st : Style) (c : Color) : Style := { st with fg := some c }

/-- A `Span`: a run of text with a style. -/
structure Span where
  content : String
  style : Style
deriving DecidableEq, Repr

def Span.raw (s : String) : Span := { content := s, style := Style.default }

def Span.styled (s : String) (st : Style) : Span := { content := s, style := st }

/-- A `Spans` value is one rendered line: a list of spans. -/
abbrev Line := List Span

inductive Alignment where
  | Left
  | Center
  | Right
deriving DecidableEq, Repr

inductive BorderType where
  | Plain
deriving DecidableEq, Repr

/-- The `Block` each screen wraps itself in. -/
structure Block where
  bordersAll : Bool := false
  style : Style := Style.default
  title : String := ""
  border_type : BorderType := BorderType.Plain
deriving DecidableEq, Repr

/-- A `Paragraph` widget as the three render functions build it. -/
structure Paragraph where
  text : List Line
  alignment : Alignment
  block : Block
deriving DecidableEq, Repr

/-- Source: `fn render_home() -> Paragraph` (lifetimes elided). -/
def render_home : Paragraph :=
  { text :=
      [ [Span.raw ""]
      , [Span.raw "Welcome"]
      , [Span.raw ""]
      , [Span.raw "to"]
      , [Span.raw ""]
      , [Span.styled "pet-CLI" (Style.default.withFg Color.LightBlue)]
      , [Span.raw ""]
      , [Span.raw "Hello Press \x27p\x27 to access pets, \x27a\x27 to add random new pets and \x27d\x27 to delete the currently selected pet."] ]
  , alignment := Alignment.Center
  , block :=
      { bordersAll := true
      , style := Style.default.withFg Color.White
      , title := "Home"
      , border_type := BorderType.Plain } }

/-- Source: `fn render_opening() -> Paragraph` (lifetimes elided). -/
def render_opening : Paragraph :=
  { text :=
      [ [Span.styled "Liberal Crime Squad" (Style.default.withFg Color.Green)]
      , [Span.raw ""]
      , [Span.raw "Inspired by the 1983 version of Oubliette"]
      , [Span.raw ""]
      , [Span.raw "\"Let\x27s get on with it!\""]
      , [Span.raw "-- Grimith"]
      , [Span.raw ""]
      , [Span.raw "v3.9 Copyright (C) 2002-4, Tarn Adams"]
      , [Span.raw ""]
      , [Span.raw "A Bay 12 Games Production"]
      , [Span.raw ""]
      , [Span.raw "http://bay12games.com/lcs/"]
      , [Span.raw ""]
      , [Span.raw "A Rust Rewright, mostly for fun and learning"]
      , [Span.raw "Maintained by the Open Source Community"]
      , [Span.raw "https://github.com/cinmay/Liberal-Crime-Squad"]
      , [Span.raw ""]
      , [Span.raw "A huge thanks to the 4.12 community for their work on imporoving game."]
      , [Span.raw "https://github.com/King-Drake/Liberal-Crime-Squad"]
      , [Span.raw ""]
      , [Span.raw "Press ESC now to quit. Quitting later causes your progress to be saved."]
      , [Span.raw "Press any other key to pursue your Liberal Agenda!"] ]
  , alignment := Alignment.Center
  , block :=
      { bordersAll := true
      , style := Style.default.withFg Color.White
      , title := "Opening"
      , border_type := BorderType.Plain } }

/-- Source: `fn render_savegame_name(savefile_name: &String) ->
Paragraph` (lifetimes elided). -/
def render_savegame_name (savefile_name : List Char) : Paragraph :=
  { text :=
      [ [Span.raw "In what world will you pursue your Liberal Agenda?"]
      , [Span.raw "Enter a name for the save file."]
      , [Span.raw (String.mk savefile_name)] ]
  , alignment := Alignment.Center
  , block :=
      { bordersAll := true
      , style := Style.default.withFg Color.White
      , title := "Savegame Name"
      , border_type := BorderType.Plain } }

/-- The render dispatch inside `terminal.draw`: which widget fills the
middle chunk, as a function of the controller state. -/
def renderFor (s : State) : Paragraph :=
  match s.active_menu_item with
  | MenuItem.Opening => render_opening
  | MenuItem.Home => render_home
  | MenuItem.SavegameName => render_savegame_name s.savefile_name

/-! ## Derived notions used by the statements -/

/-- The quit triggers named by the spec: an Escape key press, or a
`'q'` key press made while the active screen is Home. -/
def escOrHomeQuit (s : State) (e : Event) : Bool :=
  e == Event.Input KeyCode.Esc ||
    (s.active_menu_item == MenuItem.Home && e == Event.Input (KeyCode.Char 'q'))

/-- Says that no event of `evs`, consumed from `s` on, is an Escape
press or a `'q'` press made while in Home. -/
def noQuitRun : State → List Event → Bool
  | _, [] => true
  | s, e :: rest =>
    !escOrHomeQuit s e &&
      (match step s e with
       | StepResult.cont s' => noQuitRun s' rest
       | StepResult.exit _ => true)

/-- An editing key press inside the savegame-name screen. -/
inductive NameEdit where
  | typeChar (c : Char)
  | backspace
deriving DecidableEq, Repr

def NameEdit.toEvent : NameEdit → Event
  | NameEdit.typeChar c => Event.Input (KeyCode.Char c)
  | NameEdit.backspace => Event.Input KeyCode.Backspace

/-- The buffer the spec predicts: each typed character appended, one
trailing character removed per Backspace, Backspace a no-op on an empty
buffer (`dropLast [] = []`). -/
def applyEdits (buf : List Char) : List NameEdit → List Char
  | [] => buf
  | NameEdit.typeChar c :: rest => applyEdits (buf ++ [c]) rest
  | NameEdit.backspace :: rest => applyEdits buf.dropLast rest

/-- The loop body exits exactly on: Escape in Opening, `'q'` in Home, or
Escape in SavegameName — and then its effects are raw-mode disable
followed by cursor show. -/
theorem step_exit_iff (s : State) (e : Event) (effs : List Effect) :
    step s e = StepResult.exit effs ↔
      (effs = [Effect.disableRawMode, Effect.showCursor] ∧
        ((s.active_menu_item = MenuItem.Opening ∧ e = Event.Input KeyCode.Esc) ∨
         (s.active_menu_item = MenuItem.Home ∧ e = Event.Input (KeyCode.Char 'q')) ∨
         (s.active_menu_item = MenuItem.SavegameName ∧ e = Event.Input KeyCode.Esc))) := by
  obtain ⟨a, buf⟩ := s
  cases a <;> rcases e with k | _ <;> first
    | (cases k <;> simp [step] <;>
        (try (rename_i c
              by_cases hq : c = 'q' <;> by_cases hh : c = 'h' <;> by_cases ho : c = 'o' <;>
                simp_all [step])))
    | simp [step]
  all_goals exact eq_comm

/-- Every screen ignores a Tick: the state is returned unchanged. -/
theorem step_tick (s : State) : step s Event.Tick = StepResult.cont s := by
  obtain ⟨a, buf⟩ := s
  cases a <;> rfl

/-- A run that exits reports exactly the raw-mode-disable and
cursor-show effects. -/
theorem runEvents_exit_effects (evs : List Event) :
    ∀ s effs, runEvents s evs = RunResult.exited effs →
      effs = [Effect.disableRawMode, Effect.showCursor] := by
  induction evs with
  | nil => intro s effs h; simp [runEvents] at h
  | cons e rest ih =>
    intro s effs h
    rcases hstep : step s e with s' | effs'
    · rw [runEvents, hstep] at h
      exact ih s' effs h
    · rw [runEvents, hstep] at h
      cases h
      exact ((step_exit_iff s e effs).mp hstep).1

/-! ## Claims -/

/-- C1 counterexample: pressing Escape while in Home does not terminate
the loop; the event falls into the wildcard no-op arm and the state is
unchanged. -/
theorem esc_in_home_ignored :
    step ⟨MenuItem.Home, []⟩ (Event.Input KeyCode.Esc) =
      StepResult.cont ⟨MenuItem.Home, []⟩ ∧
    (step ⟨MenuItem.Home, []⟩ (Event.Input KeyCode.Esc)).isExit = false :=
  ⟨rfl, rfl⟩

/-- C1 (amended): Escape terminates the loop from Opening and from
SavegameEntry, but is ignored in Home; `'q'` in Home terminates; `'q'`
typed in SavegameEntry is appended to the buffer and does not
terminate. -/
theorem escape_quit_dispatch (buf : List Char) :
    step ⟨MenuItem.Opening, buf⟩ (Event.Input KeyCode.Esc) =
      StepResult.exit [Effect.disableRawMode, Effect.showCursor] ∧
    step ⟨MenuItem.SavegameName, buf⟩ (Event.Input KeyCode.Esc) =
      StepResult.exit [Effect.disableRawMode, Effect.showCursor] ∧
    step ⟨MenuItem.Home, buf⟩ (Event.Input KeyCode.Esc) =
      StepResult.cont ⟨MenuItem.Home, buf⟩ ∧
    step ⟨MenuItem.Home, buf⟩ (Event.Input (KeyCode.Char 'q')) =
      StepResult.exit [Effect.disableRawMode, Effect.showCursor] ∧
    step ⟨MenuItem.SavegameName, buf⟩ (Event.Input (KeyCode.Char 'q')) =
      StepResult.cont ⟨MenuItem.SavegameName, buf ++ ['q']⟩ := by
  refine ⟨rfl, rfl, rfl, ?_, rfl⟩
  simp [step]

/-- C2: from SavegameEntry with any starting buffer, any interleaving of
character and Backspace presses leaves the loop running in SavegameEntry
with the buffer predicted by `applyEdits`; Backspace on an empty buffer
is a no-op. -/
theorem savegame_entry_edit_sequences (buf : List Char) (edits : List NameEdit) :
    runEvents ⟨MenuItem.SavegameName, buf⟩ (edits.map NameEdit.toEvent) =
      RunResult.running ⟨MenuItem.SavegameName, applyEdits buf edits⟩ ∧
    step ⟨MenuItem.SavegameName, []⟩ (Event.Input KeyCode.Backspace) =
      StepResult.cont ⟨MenuItem.SavegameName, []⟩ := by
  refine ⟨?_, rfl⟩
  induction edits generalizing buf with
  | nil => rfl
  | cons e rest ih =>
    cases e with
    | typeChar c =>
      simpa [NameEdit.toEvent, runEvents, step, applyEdits] using ih (buf ++ [c])
    | backspace =>
      simpa [NameEdit.toEvent, runEvents, step, applyEdits] using ih buf.dropLast

/-- C3: a finite event sequence containing no Escape press and no `'q'`
press made while in Home leaves the loop running; in particular any
number of Tick events alone leaves it running in the same state. -/
theorem no_quit_never_terminates :
    (∀ (evs : List Event) (s : State), noQuitRun s evs = true →
        (runEvents s evs).isRunning = true) ∧
    (∀ (s : State) (n : Nat),
        runEvents s (List.replicate n Event.Tick) = RunResult.running s) := by
  constructor
  · intro evs
    induction evs with
    | nil => intro s _; rfl
    | cons e rest ih =>
      intro s h
      rw [noQuitRun, Bool.and_eq_true, Bool.not_eq_true'] at h
      obtain ⟨h1, h2⟩ := h
      rcases hstep : step s e with s' | effs
      · rw [runEvents, hstep]
        rw [hstep] at h2
        exact ih s' h2
      · exfalso
        have hx := (step_exit_iff s e effs).mp hstep
        simp only [escOrHomeQuit, Bool.or_eq_false_iff, Bool.and_eq_false_iff,
          beq_eq_false_iff_ne, ne_eq, beq_iff_eq] at h1
        rcases hx.2 with ⟨_, he⟩ | ⟨hh, he⟩ | ⟨_, he⟩
        · exact h1.1 he
        · rcases h1.2 with hc | hc
          · simp [hh] at hc
          · exact hc he
        · exact h1.1 he
  · intro s n
    induction n with
    | zero => rfl
    | succ n ih =>
      rw [List.replicate_succ, runEvents, step_tick]
      exact ih

/-- Witness for C3 on a concrete quit-free event sequence. -/
theorem no_quit_never_terminates_witness :
    (runEvents ⟨MenuItem.Home, []⟩
        [Event.Input (KeyCode.Char 'o'), Event.Tick,
         Event.Input (KeyCode.Char 'x')]).isRunning = true :=
  no_quit_never_terminates.1
    [Event.Input (KeyCode.Char 'o'), Event.Tick, Event.Input (KeyCode.Char 'x')]
    ⟨MenuItem.Home, []⟩ (by decide)

/-- C4: a Tick never changes the active screen and never terminates the
loop; when the loop body does exit, the triggering event was an Escape
press or a `'q'` press — never a Tick, so never automatic. -/
theorem tick_noop_and_exit_only_by_key :
    (∀ s : State, step s Event.Tick = StepResult.cont s) ∧
    (∀ (s : State) (e : Event) (effs : List Effect),
        step s e = StepResult.exit effs →
          e = Event.Input KeyCode.Esc ∨ e = Event.Input (KeyCode.Char 'q')) := by
  refine ⟨step_tick, ?_⟩
  intro s e effs h
  rcases ((step_exit_iff s e effs).mp h).2 with ⟨_, he⟩ | ⟨_, he⟩ | ⟨_, he⟩
  · exact Or.inl he
  · exact Or.inr he
  · exact Or.inl he

/-- Witness for C4 at the concrete exit `Escape in Opening`. -/
theorem tick_noop_and_exit_only_by_key_witness :
    step ⟨MenuItem.Opening, []⟩ Event.Tick = StepResult.cont ⟨MenuItem.Opening, []⟩ ∧
    (Event.Input KeyCode.Esc = Event.Input KeyCode.Esc ∨
      Event.Input KeyCode.Esc = Event.Input (KeyCode.Char 'q')) :=
  ⟨tick_noop_and_exit_only_by_key.1 ⟨MenuItem.Opening, []⟩,
   tick_noop_and_exit_only_by_key.2 ⟨MenuItem.Opening, []⟩ (Event.Input KeyCode.Esc)
     [Effect.disableRawMode, Effect.showCursor] (by decide)⟩

/-- C5: the controller starts in Home, and the Home dispatch is: `'q'`
exits, `'h'` keeps the state Home, `'o'` moves to Opening, and every
other key leaves state and buffer unchanged. -/
theorem home_dispatch :
    active_menu_item_init = MenuItem.Home ∧
    initialState.active_menu_item = MenuItem.Home ∧
    (∀ buf, step ⟨MenuItem.Home, buf⟩ (Event.Input (KeyCode.Char 'q')) =
        StepResult.exit [Effect.disableRawMode, Effect.showCursor]) ∧
    (∀ buf, step ⟨MenuItem.Home, buf⟩ (Event.Input (KeyCode.Char 'h')) =
        StepResult.cont ⟨MenuItem.Home, buf⟩) ∧
    (∀ buf, step ⟨MenuItem.Home, buf⟩ (Event.Input (KeyCode.Char 'o')) =
        StepResult.cont ⟨MenuItem.Opening, buf⟩) ∧
    (∀ buf (k : KeyCode), k ≠ KeyCode.Char 'q' → k ≠ KeyCode.Char 'h' →
        k ≠ KeyCode.Char 'o' →
        step ⟨MenuItem.Home, buf⟩ (Event.Input k) = StepResult.cont ⟨MenuItem.Home, buf⟩) := by
  refine ⟨rfl, rfl, fun buf => by simp [step], fun buf => by simp [step],
    fun buf => by simp [step], ?_⟩
  intro buf k hq hh ho
  cases k with
  | Char c =>
    have hq' : c ≠ 'q' := fun h => hq (by rw [h])
    have hh' : c ≠ 'h' := fun h => hh (by rw [h])
    have ho' : c ≠ 'o' := fun h => ho (by rw [h])
    simp [step, hq', hh', ho']
  | Esc => rfl
  | Enter => rfl
  | Backspace => rfl
  | other => rfl

/-- Witness for C5 with the unmatched key Escape. -/
theorem home_dispatch_witness :
    step ⟨MenuItem.Home, []⟩ (Event.Input KeyCode.Esc) =
      StepResult.cont ⟨MenuItem.Home, []⟩ :=
  home_dispatch.2.2.2.2.2 [] KeyCode.Esc (by decide) (by decide) (by decide)

/-- C6: the savegame-name buffer starts empty, and Enter in
SavegameEntry moves to Home with the buffer untouched. -/
theorem savefile_name_lifecycle :
    savefile_name_init = [] ∧
    initialState.savefile_name = [] ∧
    (∀ buf, step ⟨MenuItem.SavegameName, buf⟩ (Event.Input KeyCode.Enter) =
        StepResult.cont ⟨MenuItem.Home, buf⟩) :=
  ⟨rfl, rfl, fun _ => rfl⟩

/-- C7 counterexample: an iteration with no pending input, a due tick
and a failing Tick send does not stop the producer — the loop continues
(with the tick timer not reset), contradicting "for both Input and Tick
events, the producer loop stops". -/
theorem tick_send_failure_continues :
    producer_iter ⟨false, CEvent.other, true, true, false⟩ =
      ProducerOutcome.continued [] false ∧
    (producer_iter ⟨false, CEvent.other, true, true, false⟩).isStopped = false :=
  ⟨rfl, rfl⟩

/-- C7 (amended): a failing Input send panics the producer thread
(stopping it); a failing Tick send is silently ignored — the loop
continues, the tick is dropped and the tick timer is not reset; on a
fully successful iteration the input event is delivered before the tick,
in FIFO order. -/
theorem producer_send_failure_behaviour :
    (∀ (env : ProducerEnv) (k : KeyCode), env.poll = true → env.read = CEvent.Key k →
        env.inputSendOk = false → producer_iter env = ProducerOutcome.panicked []) ∧
    (∀ env : ProducerEnv, env.poll = false → env.tickDue = true →
        env.tickSendOk = false →
        producer_iter env = ProducerOutcome.continued [] false) ∧
    (∀ (env : ProducerEnv) (k : KeyCode), env.poll = true → env.read = CEvent.Key k →
        env.inputSendOk = true → env.tickDue = true → env.tickSendOk = true →
        producer_iter env = ProducerOutcome.continued [Event.Input k, Event.Tick] true) := by
  refine ⟨?_, ?_, ?_⟩
  · intro env k hp hr hi
    obtain ⟨p, r, i, td, ts⟩ := env
    simp_all [producer_iter]
  · intro env hp htd hts
    obtain ⟨p, r, i, td, ts⟩ := env
    simp_all [producer_iter]
  · intro env k hp hr hi htd hts
    obtain ⟨p, r, i, td, ts⟩ := env
    simp_all [producer_iter]

/-- Witness for C7 (amended) at concrete producer environments. -/
theorem producer_send_failure_behaviour_witness :
    producer_iter ⟨true, CEvent.Key KeyCode.Enter, false, true, true⟩ =
      ProducerOutcome.panicked [] ∧
    producer_iter ⟨false, CEvent.other, true, true, false⟩ =
      ProducerOutcome.continued [] false ∧
    producer_iter ⟨true, CEvent.Key (KeyCode.Char 'a'), true, true, true⟩ =
      ProducerOutcome.continued [Event.Input (KeyCode.Char 'a'), Event.Tick] true :=
  ⟨producer_send_failure_behaviour.1 ⟨true, CEvent.Key KeyCode.Enter, false, true, true⟩
      KeyCode.Enter rfl rfl rfl,
   producer_send_failure_behaviour.2.1 ⟨false, CEvent.other, true, true, false⟩
      rfl rfl rfl,
   producer_send_failure_behaviour.2.2 ⟨true, CEvent.Key (KeyCode.Char 'a'), true, true, true⟩
      (KeyCode.Char 'a') rfl rfl rfl rfl rfl⟩

/-- C8: each of the three break paths disables raw mode then shows the
cursor, and whenever the loop finishes, its effects are exactly those
two, in that order, and the process reports success. -/
theorem exit_paths_restore_terminal :
    (∀ buf, mainRun ⟨MenuItem.Opening, buf⟩ [Event.Input KeyCode.Esc] =
        MainOutcome.finished [Effect.disableRawMode, Effect.showCursor] true) ∧
    (∀ buf, mainRun ⟨MenuItem.Home, buf⟩ [Event.Input (KeyCode.Char 'q')] =
        MainOutcome.finished [Effect.disableRawMode, Effect.showCursor] true) ∧
    (∀ buf, mainRun ⟨MenuItem.SavegameName, buf⟩ [Event.Input KeyCode.Esc] =
        MainOutcome.finished [Effect.disableRawMode, Effect.showCursor] true) ∧
    (∀ (s : State) (evs : List Event) (effs : List Effect) (ok : Bool),
        mainRun s evs = MainOutcome.finished effs ok →
          effs = [Effect.disableRawMode, Effect.showCursor] ∧ ok = true) := by
  refine ⟨fun buf => rfl, fun buf => by simp [mainRun, runEvents, step], fun buf => rfl, ?_⟩
  intro s evs effs ok h
  rcases hr : runEvents s evs with s' | effs'
  · rw [mainRun, hr] at h
    cases h
  · rw [mainRun, hr] at h
    cases h
    exact ⟨runEvents_exit_effects evs s effs hr, rfl⟩

/-- Witness for C8 at the concrete `'q'`-in-Home exit. -/
theorem exit_paths_restore_terminal_witness :
    [Effect.disableRawMode, Effect.showCursor] =
      [Effect.disableRawMode, Effect.showCursor] ∧ true = true :=
  exit_paths_restore_terminal.2.2.2 ⟨MenuItem.Home, []⟩
    [Event.Input (KeyCode.Char 'q')] [Effect.disableRawMode, Effect.showCursor] true
    (by decide)

/-- C9: rendering is a pure function of the active screen and the
buffer: states agreeing on both render identically, and
`render_savegame_name` depends only on the buffer value. -/
theorem render_deterministic :
    (∀ s₁ s₂ : State, s₁.active_menu_item = s₂.active_menu_item →
        s₁.savefile_name = s₂.savefile_name → renderFor s₁ = renderFor s₂) ∧
    (∀ b₁ b₂ : List Char, b₁ = b₂ →
        render_savegame_name b₁ = render_savegame_name b₂) := by
  constructor
  · intro s₁ s₂ h1 h2
    obtain ⟨a₁, b₁⟩ := s₁
    obtain ⟨a₂, b₂⟩ := s₂
    cases h1
    cases h2
    rfl
  · intro b₁ b₂ h
    rw [h]

/-- Witness for C9 at two equal concrete states. -/
theorem render_deterministic_witness :
    renderFor ⟨MenuItem.SavegameName, ['a']⟩ = renderFor ⟨MenuItem.SavegameName, ['a']⟩ ∧
    render_savegame_name ['a'] = render_savegame_name ['a'] :=
  ⟨render_deterministic.1 ⟨MenuItem.SavegameName, ['a']⟩ ⟨MenuItem.SavegameName, ['a']⟩
      rfl rfl,
   render_deterministic.2 ['a'] ['a'] rfl⟩

/-- C10: a step taken in Opening or Home never changes the savegame-name
buffer. -/
theorem buffer_framed_outside_savegame :
    ∀ (s : State) (e : Event) (s' : State),
      (s.active_menu_item = MenuItem.Opening ∨ s.active_menu_item = MenuItem.Home) →
      step s e = StepResult.cont s' → s'.savefile_name = s.savefile_name := by
  intro s e s' ha h
  obtain ⟨a, buf⟩ := s
  rcases e with k | _
  · cases a with
    | Opening =>
      cases k <;> simp [step] at h <;> simp [← h]
    | Home =>
      cases k <;> simp [step] at h <;> try simp [← h]
      rename_i c
      by_cases hq : c = 'q' <;> by_cases hh : c = 'h' <;> by_cases ho : c = 'o' <;>
        simp_all [step] <;> simp [← h]
    | SavegameName => simp at ha
  · rw [step_tick] at h
    cases h
    rfl

/-- Witness for C10 at a concrete Home step. -/
theorem buffer_framed_outside_savegame_witness :
    (⟨MenuItem.Opening, ['a']⟩ : State).savefile_name =
      (⟨MenuItem.Home, ['a']⟩ : State).savefile_name :=
  buffer_framed_outside_savegame ⟨MenuItem.Home, ['a']⟩
    (Event.Input (KeyCode.Char 'o')) ⟨MenuItem.Opening, ['a']⟩
    (Or.inr rfl) (by decide)

end LCS
